import Mathlib

/-
  Verification development for the rizq-ai-frontend repository.

  The definitions below are shallow embeddings of the TypeScript source:
  JavaScript Sets become Finset, JS objects/records become association
  lists, optional JS fields become Option, and JS truthiness is made
  explicit through small helper functions.  Each claim about the code is
  then settled as a theorem about these definitions.
-/

/-- JS truthiness of a possibly-absent string: truthy iff present and
non-empty (undefined and the empty string are falsy). -/
def jsTruthyOptStr : Option String → Bool
  | some s => s != ""
  | none => false

/-- JS expression a or-else undefined: a truthy string stays, a falsy
value collapses to undefined. -/
def jsOrUndef : Option String → Option String
  | some s => if s = "" then none else some s
  | none => none

/-- JS expression a or-else b or-else undefined over two optional strings. -/
def jsOrOpt (a b : Option String) : Option String :=
  match jsOrUndef a with
  | some s => some s
  | none => jsOrUndef b

/-- JS expression a or-else b or-else dflt producing a definite string. -/
def jsOr3 (a b : Option String) (dflt : String) : String :=
  match jsOrUndef a with
  | some s => s
  | none =>
    match jsOrUndef b with
    | some s => s
    | none => dflt

/-- JS numeric or-else with 0 falsy, as in data.total or-else totalJobs. -/
def jsOrNat (o : Option Nat) (dflt : Nat) : Nat :=
  match o with
  | some n => if n = 0 then dflt else n
  | none => dflt

/-- JS boolean or-else false, as in data.isComplete or-else false. -/
def jsOrBool : Option Bool → Bool
  | some b => b
  | none => false

/-
  src/contexts/JobSelectionContext.tsx

  selectedJobs is a JS Set of job ids; we embed it as a Finset String.
-/

/-- toggleJobSelection from JobSelectionContext: delete the id when present,
add it otherwise. -/
def toggleJobSelection (selectedJobs : Finset String) (jobId : String) : Finset String :=
  if jobId ∈ selectedJobs then selectedJobs.erase jobId else insert jobId selectedJobs

/-- clearSelection from JobSelectionContext: reset to the empty set. -/
def clearSelection : Finset String := ∅

/-- hasSelection from JobSelectionContext: selectedJobs.size greater than 0. -/
def hasSelection (selectedJobs : Finset String) : Bool :=
  decide (0 < selectedJobs.card)

/-
  Job record as used by the home page (src/app/page.tsx); only the fields
  the verified functions read are carried, with _id the key field.
-/

structure Job where
  _id : String
  title : String
  company : String
  location : String
  deriving DecidableEq, Repr

/-- Loop body of dedupeJobs from src/app/page.tsx: walk the list carrying
the set of seen ids and the accumulated unique jobs (pushed at the end). -/
def dedupeGo (seenIds : List String) (unique : List Job) : List Job → List Job
  | [] => unique
  | job :: rest =>
    if job._id ∈ seenIds then dedupeGo seenIds unique rest
    else dedupeGo (job._id :: seenIds) (unique ++ [job]) rest

/-- dedupeJobs from src/app/page.tsx: keep the first occurrence of each _id. -/
def dedupeJobs (list : List Job) : List Job := dedupeGo [] [] list

/-- Accumulator-free form of the dedupe loop, used to reason about dedupeGo. -/
def dedupeAux (seenIds : List String) : List Job → List Job
  | [] => []
  | job :: rest =>
    if job._id ∈ seenIds then dedupeAux seenIds rest
    else job :: dedupeAux (job._id :: seenIds) rest

theorem dedupeGo_eq_append (l : List Job) :
    ∀ seenIds unique, dedupeGo seenIds unique l = unique ++ dedupeAux seenIds l := by
  induction l with
  | nil => intro s u; simp [dedupeGo, dedupeAux]
  | cons job rest ih =>
    intro s u
    by_cases h : job._id ∈ s
    · simp [dedupeGo, dedupeAux, h, ih]
    · simp [dedupeGo, dedupeAux, h, ih]

theorem dedupeJobs_eq_aux (l : List Job) : dedupeJobs l = dedupeAux [] l := by
  simp [dedupeJobs, dedupeGo_eq_append]

theorem dedupeAux_sublist (l : List Job) :
    ∀ seenIds, List.Sublist (dedupeAux seenIds l) l := by
  induction l with
  | nil => intro s; simp [dedupeAux]
  | cons job rest ih =>
    intro s
    by_cases h : job._id ∈ s
    · simpa [dedupeAux, h] using List.Sublist.cons job (ih s)
    · simpa [dedupeAux, h] using List.Sublist.cons₂ job (ih (job._id :: s))

theorem mem_map_id_dedupeAux (l : List Job) :
    ∀ seenIds k, k ∈ (dedupeAux seenIds l).map Job._id → k ∉ seenIds ∧ k ∈ l.map Job._id := by
  induction l with
  | nil => intro s k hk; simp [dedupeAux] at hk
  | cons job rest ih =>
    intro s k hk
    by_cases h : job._id ∈ s
    · simp only [dedupeAux, if_pos h] at hk
      rcases ih s k hk with ⟨h1, h2⟩
      exact ⟨h1, by simp [h2]⟩
    · simp only [dedupeAux, if_neg h, List.map_cons, List.mem_cons] at hk
      rcases hk with hk | hk
      · subst hk; exact ⟨h, by simp⟩
      · rcases ih (job._id :: s) k hk with ⟨h1, h2⟩
        refine ⟨fun hs => h1 (by simp [hs]), by simp [h2]⟩

theorem nodup_map_id_dedupeAux (l : List Job) :
    ∀ seenIds, ((dedupeAux seenIds l).map Job._id).Nodup := by
  induction l with
  | nil => intro s; simp [dedupeAux]
  | cons job rest ih =>
    intro s
    by_cases h : job._id ∈ s
    · simpa [dedupeAux, h] using ih s
    · simp only [dedupeAux, if_neg h, List.map_cons, List.nodup_cons]
      refine ⟨fun hm => ?_, ih (job._id :: s)⟩
      exact (mem_map_id_dedupeAux rest (job._id :: s) job._id hm).1 (by simp)

theorem dedupeAux_eq_self (l : List Job) :
    ∀ seenIds, (l.map Job._id).Nodup → (∀ j ∈ l, j._id ∉ seenIds) →
      dedupeAux seenIds l = l := by
  induction l with
  | nil => intro s _ _; simp [dedupeAux]
  | cons job rest ih =>
    intro s hnodup hdisj
    have hjob : job._id ∉ s := hdisj job (by simp)
    simp only [dedupeAux, if_neg hjob]
    simp only [List.map_cons, List.nodup_cons] at hnodup
    refine congrArg (job :: ·) (ih (job._id :: s) hnodup.2 ?_)
    intro j hj
    simp only [List.mem_cons]
    push_neg
    refine ⟨fun he => hnodup.1 ?_, hdisj j (by simp [hj])⟩
    rw [← he]
    exact List.mem_map_of_mem Job._id hj

theorem dedupeAux_mem_first (j : Job) (l₂ : List Job) :
    ∀ (l₁ : List Job) (seenIds : List String),
      (∀ k ∈ l₁, k._id ≠ j._id) → j._id ∉ seenIds →
      j ∈ dedupeAux seenIds (l₁ ++ j :: l₂) := by
  intro l₁
  induction l₁ with
  | nil =>
    intro s _ hs
    simp [dedupeAux, hs]
  | cons a rest ih =>
    intro s hne hs
    by_cases h : a._id ∈ s
    · simp only [List.cons_append, dedupeAux, if_pos h]
      exact ih s (fun k hk => hne k (by simp [hk])) hs
    · simp only [List.cons_append, dedupeAux, if_neg h]
      refine List.mem_cons_of_mem a (ih (a._id :: s) (fun k hk => hne k (by simp [hk])) ?_)
      simp only [List.mem_cons]
      push_neg
      exact ⟨fun he => (hne a (by simp)) he.symm, hs⟩

/-- Claim C9: dedupeJobs returns the subsequence of its input keeping
exactly the first occurrence of each _id in input order: the output ids
are pairwise distinct, the output is a subsequence of the input, every
job whose _id does not occur earlier in the list appears in the output,
dedupeJobs is idempotent, and it is the identity on id-distinct lists. -/
theorem claim_C9 (l : List Job) :
    ((dedupeJobs l).map Job._id).Nodup
    ∧ List.Sublist (dedupeJobs l) l
    ∧ dedupeJobs (dedupeJobs l) = dedupeJobs l
    ∧ ((l.map Job._id).Nodup → dedupeJobs l = l)
    ∧ (∀ (l₁ : List Job) (j : Job) (l₂ : List Job),
        l = l₁ ++ j :: l₂ → (∀ k ∈ l₁, k._id ≠ j._id) → j ∈ dedupeJobs l) := by
  have hnodup : ((dedupeJobs l).map Job._id).Nodup := by
    rw [dedupeJobs_eq_aux]; exact nodup_map_id_dedupeAux l []
  refine ⟨hnodup, ?_, ?_, ?_, ?_⟩
  · rw [dedupeJobs_eq_aux]; exact dedupeAux_sublist l []
  · rw [dedupeJobs_eq_aux (dedupeJobs l)]
    exact dedupeAux_eq_self (dedupeJobs l) [] hnodup (by simp)
  · intro h
    rw [dedupeJobs_eq_aux]
    exact dedupeAux_eq_self l [] h (by simp)
  · intro l₁ j l₂ hl hfirst
    rw [dedupeJobs_eq_aux, hl]
    exact dedupeAux_mem_first j l₂ l₁ [] hfirst (by simp)

/-- Witness for claim C9 at a concrete two-job list with distinct ids. -/
theorem claim_C9_witness :
    dedupeJobs [⟨"a", "t1", "c1", "l1"⟩, ⟨"b", "t2", "c2", "l2"⟩]
      = [⟨"a", "t1", "c1", "l1"⟩, ⟨"b", "t2", "c2", "l2"⟩] :=
  (claim_C9 [⟨"a", "t1", "c1", "l1"⟩, ⟨"b", "t2", "c2", "l2"⟩]).2.2.2.1 (by decide)

/-- Claim C10: toggleJobSelection flips exactly the membership of the
given job id and preserves every other membership, is an involution,
clearSelection is the empty selection, and hasSelection holds exactly on
non-empty selections. -/
theorem claim_C10 (s : Finset String) (jobId : String) :
    (jobId ∈ toggleJobSelection s jobId ↔ jobId ∉ s)
    ∧ (∀ k, k ≠ jobId → (k ∈ toggleJobSelection s jobId ↔ k ∈ s))
    ∧ toggleJobSelection (toggleJobSelection s jobId) jobId = s
    ∧ clearSelection = (∅ : Finset String)
    ∧ (hasSelection s = true ↔ s.Nonempty) := by
  by_cases h : jobId ∈ s
  · refine ⟨by simp [toggleJobSelection, h], ?_, ?_, rfl, ?_⟩
    · intro k hk; simp [toggleJobSelection, h, Finset.mem_erase, hk]
    · have herase : jobId ∉ s.erase jobId := by simp
      simp [toggleJobSelection, h, herase, Finset.insert_erase h]
    · simp [hasSelection, Finset.card_pos]
  · refine ⟨by simp [toggleJobSelection, h], ?_, ?_, rfl, ?_⟩
    · intro k hk; simp [toggleJobSelection, h, Finset.mem_insert, hk]
    · have hins : jobId ∈ insert jobId s := by simp
      simp [toggleJobSelection, h, hins, Finset.erase_insert h]
    · simp [hasSelection, Finset.card_pos]

/-- Witness for claim C10 at a concrete selection and job id. -/
theorem claim_C10_witness :
    ("x" ∈ toggleJobSelection {"a"} "x" ↔ "x" ∉ ({"a"} : Finset String))
    ∧ ("a" ∈ toggleJobSelection {"a"} "x" ↔ "a" ∈ ({"a"} : Finset String)) :=
  ⟨(claim_C10 {"a"} "x").1, (claim_C10 {"a"} "x").2.1 "a" (by decide)⟩

/-
  src/components/jobs/BulkApplyBar.tsx

  Minimum-selection gating for the bulk apply flow.
-/

/-- MINIMUM_JOBS_REQUIRED from BulkApplyBar. -/
def MINIMUM_JOBS_REQUIRED : Nat := 1

/-- isMinimumMet from BulkApplyBar: selectedJobs.size at least the minimum. -/
def isMinimumMet (selectedCount : Nat) : Bool :=
  decide (MINIMUM_JOBS_REQUIRED ≤ selectedCount)

/-- disabled state of the One-Click Apply button in the floating bar. -/
def oneClickApplyDisabled (selectedCount : Nat) : Bool :=
  !(isMinimumMet selectedCount)

/-- Guard outcome of handleBulkApply before any network request. -/
inductive BulkApplyGuard
  | emptyReturn
  | minimumError
  | submit
  deriving DecidableEq, Repr

/-- Guard logic at the top of handleBulkApply: return silently on an
empty selection, report a minimum-selection error below the minimum,
submit otherwise. -/
def handleBulkApplyGuard (selectedCount : Nat) : BulkApplyGuard :=
  if selectedCount = 0 then .emptyReturn
  else if selectedCount < MINIMUM_JOBS_REQUIRED then .minimumError
  else .submit

/-- Counterexample to claim C4 as stated: with a single selected job the
One-Click Apply control is enabled and handleBulkApply submits, so the
flow can be triggered for a single job posting. -/
theorem claim_C4_counterexample :
    oneClickApplyDisabled 1 = false ∧ handleBulkApplyGuard 1 = .submit := by
  decide

/-- Claim C4 (amended): the required minimum is one job, so the apply
control is disabled exactly for selections below one job (the empty
selection), handleBulkApply refuses exactly on selections below the
minimum, and every selection of at least one job, including a single
job posting, submits. -/
theorem claim_C4 (selectedCount : Nat) :
    MINIMUM_JOBS_REQUIRED = 1
    ∧ (oneClickApplyDisabled selectedCount = true ↔ selectedCount < MINIMUM_JOBS_REQUIRED)
    ∧ (handleBulkApplyGuard selectedCount = .submit ↔ MINIMUM_JOBS_REQUIRED ≤ selectedCount)
    ∧ handleBulkApplyGuard 1 = .submit := by
  refine ⟨rfl, ?_, ?_, by decide⟩
  · simp [oneClickApplyDisabled, isMinimumMet, MINIMUM_JOBS_REQUIRED]
  · constructor
    · intro h
      rcases Nat.eq_zero_or_pos selectedCount with h0 | hpos
      · subst h0; simp [handleBulkApplyGuard] at h
      · exact hpos
    · intro h
      have hh : 1 ≤ selectedCount := by simpa [MINIMUM_JOBS_REQUIRED] using h
      have h0 : selectedCount ≠ 0 := by omega
      have h1 : ¬ selectedCount < MINIMUM_JOBS_REQUIRED := by
        simp only [MINIMUM_JOBS_REQUIRED]; omega
      simp [handleBulkApplyGuard, h0, h1]

/-
  src/components/jobs/EmailListView.tsx and BulkApplyBar.tsx

  The EmailPreview objects returned by the backend preview resource.
-/

structure EmailPreview where
  emailIndex : Nat
  jobId : String
  jobTitle : String
  companyName : String
  recipientEmail : String
  subject : String
  body : String
  generatedAt : String
  lastModified : Option String
  isPlaceholder : Option Bool
  deriving DecidableEq, Repr

/-- State update performed by handleEmailUpdate in BulkApplyBar after a
successful updateEmail call: map over the preview list, rewriting the
entries whose emailIndex matches.  now is the current timestamp taken
from new Date at the call site. -/
def handleEmailUpdateState (emailPreview : List EmailPreview) (emailIndex : Nat)
    (subject body : String) (recipientEmail : Option String) (now : String) :
    List EmailPreview :=
  emailPreview.map fun email =>
    if email.emailIndex = emailIndex then
      { email with
        subject := subject
        body := body
        recipientEmail :=
          if jsTruthyOptStr recipientEmail then recipientEmail.getD email.recipientEmail
          else email.recipientEmail
        lastModified := some now
        isPlaceholder :=
          if jsTruthyOptStr recipientEmail then some false else email.isPlaceholder }
    else email

/-- State update performed by handleEmailRegenerate in BulkApplyBar after
a successful regenerateEmail call, with subject, body and generatedAt
taken from the backend response data. -/
def handleEmailRegenerateState (emailPreview : List EmailPreview) (emailIndex : Nat)
    (subject body generatedAt : String) : List EmailPreview :=
  emailPreview.map fun email =>
    if email.emailIndex = emailIndex then
      { email with subject := subject, body := body, generatedAt := generatedAt }
    else email

/-- A concrete preview entry used by the counterexamples. -/
def sampleEmail : EmailPreview :=
  { emailIndex := 0
    jobId := "job0"
    jobTitle := "Engineer"
    companyName := "Acme"
    recipientEmail := "hr@acme.test"
    subject := "old subject"
    body := "old body"
    generatedAt := "2025-01-01T00:00:00Z"
    lastModified := none
    isPlaceholder := none }

/-- Counterexample to claim C2 as stated: a successful update does not
replace only the subject and body of the matching entry, because it also
overwrites lastModified with the time of the edit. -/
theorem claim_C2_counterexample :
    handleEmailUpdateState [sampleEmail] 0 "new subject" "new body" none "2025-02-02T00:00:00Z"
      ≠ [{ sampleEmail with subject := "new subject", body := "new body" }] := by
  decide

/-- Claim C2 (amended): a successful update rewrites, in every entry
whose emailIndex matches, exactly the subject and body (and the
recipientEmail when a truthy one is supplied), together with
lastModified set to the time of the edit and the placeholder flag
cleared when a recipientEmail is supplied; a successful regeneration
rewrites exactly that entry subject, body and generatedAt; every entry
with a different emailIndex is unchanged by both operations, and both
preserve the length of the list. -/
theorem claim_C2 (preview : List EmailPreview) (i : Nat) (s b : String)
    (r : Option String) (now : String) (s2 b2 g2 : String) :
    (handleEmailUpdateState preview i s b r now).length = preview.length
    ∧ (handleEmailRegenerateState preview i s2 b2 g2).length = preview.length
    ∧ ∀ k e, preview.get? k = some e →
        ((e.emailIndex ≠ i →
            (handleEmailUpdateState preview i s b r now).get? k = some e
            ∧ (handleEmailRegenerateState preview i s2 b2 g2).get? k = some e)
        ∧ (e.emailIndex = i →
            (handleEmailUpdateState preview i s b r now).get? k = some
              { e with
                subject := s
                body := b
                recipientEmail :=
                  if jsTruthyOptStr r then r.getD e.recipientEmail else e.recipientEmail
                lastModified := some now
                isPlaceholder := if jsTruthyOptStr r then some false else e.isPlaceholder }
            ∧ (handleEmailRegenerateState preview i s2 b2 g2).get? k = some
              { e with subject := s2, body := b2, generatedAt := g2 })) := by
  refine ⟨by simp [handleEmailUpdateState], by simp [handleEmailRegenerateState], ?_⟩
  intro k e hk
  have hupd : (handleEmailUpdateState preview i s b r now).get? k
      = (preview.get? k).map _ := List.get?_map _ _ _
  have hreg : (handleEmailRegenerateState preview i s2 b2 g2).get? k
      = (preview.get? k).map _ := List.get?_map _ _ _
  constructor
  · intro hne
    rw [hupd, hreg, hk]
    simp [if_neg hne]
  · intro heq
    rw [hupd, hreg, hk]
    simp [if_pos heq]

/-- Witness for claim C2: the update and regeneration at index 0 of the
one-element sample list rewrite the stated fields. -/
theorem claim_C2_witness :
    (handleEmailUpdateState [sampleEmail] 0 "s" "b" none "T").get? 0 = some
      { sampleEmail with subject := "s", body := "b", lastModified := some "T" }
    ∧ (handleEmailRegenerateState [sampleEmail] 0 "s2" "b2" "G").get? 0 = some
      { sampleEmail with subject := "s2", body := "b2", generatedAt := "G" } := by
  have h := (claim_C2 [sampleEmail] 0 "s" "b" none "T" "s2" "b2" "G").2.2 0 sampleEmail rfl
  have h2 := h.2 rfl
  exact ⟨h2.1, h2.2⟩


/-
  JS plain objects used as string-keyed records (Record of string to T)
  are embedded as association lists: property read returns the first
  binding, property assignment overwrites in place or appends.
-/

/-- Property read on a JS record. -/
def recordGet {α : Type} : List (String × α) → String → Option α
  | [], _ => none
  | (k, v) :: rest, key => if k = key then some v else recordGet rest key

/-- Property assignment on a JS record. -/
def recordSet {α : Type} : List (String × α) → String → α → List (String × α)
  | [], key, v => [(key, v)]
  | (k, w) :: rest, key, v =>
    if k = key then (k, v) :: rest else (k, w) :: recordSet rest key v

theorem recordGet_recordSet {α : Type} (rec : List (String × α)) (key : String) (v : α)
    (j : String) :
    recordGet (recordSet rec key v) j = if j = key then some v else recordGet rec j := by
  induction rec with
  | nil =>
    by_cases h : j = key
    · subst h; simp [recordSet, recordGet]
    · have h2 : ¬ key = j := fun he => h he.symm
      simp [recordSet, recordGet, h, h2]
  | cons kv rest ih =>
    obtain ⟨k, w⟩ := kv
    by_cases hk : k = key
    · subst hk
      by_cases hj : j = k
      · subst hj; simp [recordSet, recordGet]
      · have h2 : ¬ k = j := fun he => hj he.symm
        simp [recordSet, recordGet, hj, h2]
    · by_cases hj : j = k
      · subst hj
        simp [recordSet, recordGet, hk, fun he : j = key => hk he]
      · have h2 : ¬ k = j := fun he => hj he.symm
        simp only [recordSet, if_neg hk, recordGet, h2, if_false, ih]

/-
  src/components/jobs/BulkApplyBar.tsx

  Resume generation state per job, and handleFinalizeEmails.
-/

structure ResumeState where
  pdfUrl : String
  pdfDownloadUrl : String
  googleDocUrl : String
  isGenerating : Bool
  error : Option String
  deriving DecidableEq, Repr

/-- Loop body of the resumeDownloads construction in handleFinalizeEmails:
record jobId maps-to pdfDownloadUrl when the job has a resume state with
a truthy pdfDownloadUrl. -/
def resumeDownloadsStep (resumes : List (String × ResumeState))
    (resumeDownloads : List (String × String)) (email : EmailPreview) :
    List (String × String) :=
  match recordGet resumes email.jobId with
  | some resumeState =>
    if resumeState.pdfDownloadUrl != "" then
      recordSet resumeDownloads email.jobId resumeState.pdfDownloadUrl
    else resumeDownloads
  | none => resumeDownloads

/-- The resumeDownloads record built by handleFinalizeEmails over the
email preview list. -/
def buildResumeDownloads (resumes : List (String × ResumeState))
    (emailPreview : List EmailPreview) : List (String × String) :=
  emailPreview.foldl (resumeDownloadsStep resumes) []

/-- Whether the resumes map holds a truthy pdfDownloadUrl for a job, the
condition resumeState question-dot pdfDownloadUrl of the source. -/
def hasResumeUrl (resumes : List (String × ResumeState)) (jobId : String) : Bool :=
  match recordGet resumes jobId with
  | some resumeState => resumeState.pdfDownloadUrl != ""
  | none => false

/-- The pdfDownloadUrl recorded for a job when present and truthy. -/
def resumeUrlOf (resumes : List (String × ResumeState)) (jobId : String) : Option String :=
  match recordGet resumes jobId with
  | some resumeState =>
    if resumeState.pdfDownloadUrl != "" then some resumeState.pdfDownloadUrl else none
  | none => none

/-- Outcome of handleFinalizeEmails up to its single network request. -/
inductive FinalizeAction
  | noRequest
  | resumeRequiredError
  | send (progressId : String) (resumeDownloads : List (String × String))
      (jobIds : List String)
  deriving DecidableEq, Repr

/-- handleFinalizeEmails from BulkApplyBar: return without a request when
no email progress id is set; with more than one preview email and some
email whose job lacks a recorded resume download, report the resume
required error and leave the preview unchanged; otherwise call
finalizeEmails once with the progress id, the resume download record and
the preview job ids. -/
def handleFinalizeEmails :
    Option String → List EmailPreview → List (String × ResumeState) → FinalizeAction
  | none, _, _ => .noRequest
  | some progressId, emailPreview, resumes =>
    if 1 < emailPreview.length ∧
        0 < (emailPreview.filter fun email =>
              !(jsTruthyOptStr
                  (recordGet (buildResumeDownloads resumes emailPreview) email.jobId))).length
    then
      .resumeRequiredError
    else
      .send progressId (buildResumeDownloads resumes emailPreview)
        (emailPreview.map fun email => email.jobId)

theorem jsTruthyOptStr_resumeUrlOf (resumes : List (String × ResumeState)) (j : String) :
    jsTruthyOptStr (resumeUrlOf resumes j) = hasResumeUrl resumes j := by
  unfold resumeUrlOf hasResumeUrl
  cases recordGet resumes j with
  | none => simp [jsTruthyOptStr]
  | some rs =>
    by_cases h : rs.pdfDownloadUrl = ""
    · simp [jsTruthyOptStr, h]
    · simp [jsTruthyOptStr, h]

theorem recordGet_resumeDownloadsStep (resumes : List (String × ResumeState))
    (acc : List (String × String)) (e : EmailPreview)
    (hacc : ∀ k, recordGet acc k = none ∨ recordGet acc k = resumeUrlOf resumes k)
    (k : String) :
    recordGet (resumeDownloadsStep resumes acc e) k
      = if k = e.jobId then resumeUrlOf resumes e.jobId else recordGet acc k := by
  unfold resumeDownloadsStep
  by_cases hk : k = e.jobId
  · rw [if_pos hk, hk]
    cases hres : recordGet resumes e.jobId with
    | none =>
      simp only [hres]
      rcases hacc e.jobId with h | h
      · rw [h]; unfold resumeUrlOf; rw [hres]
      · rw [h]
    | some rs =>
      by_cases hurl : rs.pdfDownloadUrl = ""
      · rcases hacc e.jobId with h | h
        · simp [hres, hurl, h, resumeUrlOf]
        · simp [hres, hurl, h, resumeUrlOf]
      · simp [hres, hurl, recordGet_recordSet, resumeUrlOf]
  · rw [if_neg hk]
    cases hres : recordGet resumes e.jobId with
    | none => simp only [hres]
    | some rs =>
      by_cases hurl : rs.pdfDownloadUrl = ""
      · simp [hres, hurl]
      · simp [hres, hurl, recordGet_recordSet, hk]

theorem recordGet_foldl_resumeDownloads (resumes : List (String × ResumeState)) :
    ∀ (preview : List EmailPreview) (acc : List (String × String)),
      (∀ k, recordGet acc k = none ∨ recordGet acc k = resumeUrlOf resumes k) →
      ∀ j,
        recordGet (preview.foldl (resumeDownloadsStep resumes) acc) j
          = if preview.any (fun e => e.jobId == j) then resumeUrlOf resumes j
            else recordGet acc j := by
  intro preview
  induction preview with
  | nil => intro acc _ j; simp
  | cons e rest ih =>
    intro acc hacc j
    have hinv : ∀ k, recordGet (resumeDownloadsStep resumes acc e) k = none
        ∨ recordGet (resumeDownloadsStep resumes acc e) k = resumeUrlOf resumes k := by
      intro k
      rw [recordGet_resumeDownloadsStep resumes acc e hacc k]
      by_cases hk : k = e.jobId
      · rw [if_pos hk, hk]; right; rfl
      · rw [if_neg hk]; exact hacc k
    rw [List.foldl_cons, ih _ hinv j, recordGet_resumeDownloadsStep resumes acc e hacc j]
    by_cases hrest : rest.any (fun x => x.jobId == j)
    · simp [hrest, List.any_cons]
    · by_cases hej : j = e.jobId
      · simp [hrest, hej, List.any_cons]
      · have hej2 : ¬ (e.jobId == j) = true := by
          simp; exact fun h => hej h.symm
        simp [hrest, List.any_cons, hej, hej2]

theorem recordGet_buildResumeDownloads (resumes : List (String × ResumeState))
    (preview : List EmailPreview) (j : String) :
    recordGet (buildResumeDownloads resumes preview) j
      = if preview.any (fun e => e.jobId == j) then resumeUrlOf resumes j else none := by
  unfold buildResumeDownloads
  rw [recordGet_foldl_resumeDownloads resumes preview [] (fun k => Or.inl rfl) j]
  rfl

/-- Claim C3: with a progress id set, handleFinalizeEmails performs no
send request and reports an error when more than one email is in the
batch and some email lacks a truthy resume download url; otherwise it
invokes finalizeEmails exactly once with the progress id, the record
mapping each job id with a generated resume to its download url, and the
batch job ids. -/
theorem claim_C3 (emailProgressId : Option String) (pid : String)
    (preview : List EmailPreview) (resumes : List (String × ResumeState))
    (hpid : emailProgressId = some pid) :
    ((1 < preview.length ∧ ∃ e ∈ preview, hasResumeUrl resumes e.jobId = false) →
      handleFinalizeEmails emailProgressId preview resumes = .resumeRequiredError)
    ∧ (¬ (1 < preview.length ∧ ∃ e ∈ preview, hasResumeUrl resumes e.jobId = false) →
      handleFinalizeEmails emailProgressId preview resumes
        = .send pid (buildResumeDownloads resumes preview) (preview.map fun e => e.jobId))
    ∧ (∀ j, recordGet (buildResumeDownloads resumes preview) j
        = if preview.any (fun e => e.jobId == j) then resumeUrlOf resumes j else none) := by
  subst hpid
  have hmissing : ∀ e ∈ preview,
      (!(jsTruthyOptStr (recordGet (buildResumeDownloads resumes preview) e.jobId)))
        = !(hasResumeUrl resumes e.jobId) := by
    intro e he
    have hany : preview.any (fun x => x.jobId == e.jobId) = true :=
      List.any_eq_true.2 ⟨e, he, by simp⟩
    rw [recordGet_buildResumeDownloads, hany, if_pos rfl, jsTruthyOptStr_resumeUrlOf]
  have hfilter : (0 < (preview.filter fun email =>
        !(jsTruthyOptStr
            (recordGet (buildResumeDownloads resumes preview) email.jobId))).length)
      ↔ ∃ e ∈ preview, hasResumeUrl resumes e.jobId = false := by
    rw [List.length_pos, Ne, List.filter_eq_nil_iff]
    constructor
    · intro h
      push_neg at h
      obtain ⟨e, he, hid⟩ := h
      refine ⟨e, he, ?_⟩
      rw [hmissing e he] at hid
      simpa using hid
    · intro ⟨e, he, hid⟩ hall
      have := hall e he
      rw [hmissing e he, hid] at this
      simp at this
  refine ⟨?_, ?_, fun j => recordGet_buildResumeDownloads resumes preview j⟩
  · intro ⟨hlen, hmiss⟩
    show (if _ then _ else _) = _
    rw [if_pos ⟨hlen, hfilter.2 hmiss⟩]
  · intro hnot
    show (if _ then _ else _) = _
    rw [if_neg (fun ⟨hlen, hf⟩ => hnot ⟨hlen, hfilter.1 hf⟩)]

/-- Witness for claim C3: a one-email batch with no resumes is sent with
an empty resume download record. -/
theorem claim_C3_witness :
    handleFinalizeEmails (some "p1") [sampleEmail] []
      = .send "p1" [] ["job0"] :=
  (claim_C3 (some "p1") "p1" [sampleEmail] [] rfl).2.1 (by decide)

/-
  src/lib/api.ts, generateProfessionalSummary

  The profile fetched from /profile, the sanitized aiResumeInput payload
  sent to /resumes/ai-generate, and the extraction of the generated
  summary from the response.  A JS value that may or may not be a string
  (profile.skills entries) is embedded as JSVal.
-/

inductive JSVal
  | str (s : String)
  | other
  deriving DecidableEq, Repr

/-- The JS typeof check for string used on profile.skills entries. -/
def isJsString : JSVal → Bool
  | .str _ => true
  | .other => false

structure ProfileExperience where
  title : Option String
  company : Option String
  location : Option String
  startDate : Option String
  start : Option String
  endDate : Option String
  «end» : Option String
  responsibilities : Option (List String)
  achievements : Option (List String)
  deriving DecidableEq, Repr

structure ProfileEducation where
  degree : Option String
  school : Option String
  location : Option String
  graduationDate : Option String
  graduation : Option String
  deriving DecidableEq, Repr

structure ProfileData where
  fullName : Option String
  name : Option String
  headline : Option String
  currentRole : Option String
  location : Option String
  email : Option String
  phone : Option String
  experience : Option (List ProfileExperience)
  education : Option (List ProfileEducation)
  skills : Option (List JSVal)
  deriving DecidableEq, Repr

structure WorkExperienceEntry where
  title : String
  company : String
  location : Option String
  startDate : Option String
  endDate : Option String
  responsibilities : Option (List String)
  achievements : Option (List String)
  deriving DecidableEq, Repr

structure EducationEntry where
  degree : Option String
  school : String
  location : Option String
  graduationDate : Option String
  deriving DecidableEq, Repr

/-- The workExperience sanitization in generateProfessionalSummary: keep
only entries with a truthy title and company, then map the fields with
falsy values collapsed to undefined. -/
def sanitizeWorkExperience (experience : Option (List ProfileExperience)) :
    List WorkExperienceEntry :=
  match experience with
  | some exps =>
    (exps.filter fun exp => jsTruthyOptStr exp.title && jsTruthyOptStr exp.company).map
      fun exp =>
        { title := exp.title.getD ""
          company := exp.company.getD ""
          location := jsOrUndef exp.location
          startDate := jsOrOpt exp.startDate exp.start
          endDate := jsOrOpt exp.endDate exp.«end»
          responsibilities := exp.responsibilities
          achievements := exp.achievements }
  | none => []

/-- The education sanitization in generateProfessionalSummary: keep only
entries with a truthy school. -/
def sanitizeEducation (education : Option (List ProfileEducation)) :
    List EducationEntry :=
  match education with
  | some edus =>
    (edus.filter fun edu => jsTruthyOptStr edu.school).map fun edu =>
      { degree := jsOrUndef edu.degree
        school := edu.school.getD ""
        location := jsOrUndef edu.location
        graduationDate := jsOrOpt edu.graduationDate edu.graduation }
  | none => []

/-- The skills sanitization in generateProfessionalSummary: keep only
string values. -/
def sanitizeSkills (skills : Option (List JSVal)) : List JSVal :=
  match skills with
  | some sks => sks.filter fun s => isJsString s
  | none => []

/-- JS String.substring with start 0: take at most n characters. -/
def strTake (n : Nat) (s : String) : String := String.mk (s.data.take n)

structure PersonalInfo where
  fullName : String
  title : String
  location : Option String
  email : Option String
  phone : Option String
  summaryPreferences : String
  deriving DecidableEq, Repr

structure AiResumeInput where
  personalInfo : PersonalInfo
  workExperience : Option (List WorkExperienceEntry)
  education : Option (List EducationEntry)
  skills : Option (List JSVal)
  additionalNotes : String
  deriving DecidableEq, Repr

/-- The aiResumeInput payload built by generateProfessionalSummary from
the fetched profile and the job context. -/
def buildAiResumeInput (profile : ProfileData) (jobTitle jobDescription companyName : String) :
    AiResumeInput :=
  { personalInfo :=
      { fullName := jsOr3 profile.fullName profile.name "Professional"
        title := jsOr3 profile.headline profile.currentRole jobTitle
        location := jsOrUndef profile.location
        email := jsOrUndef profile.email
        phone := jsOrUndef profile.phone
        summaryPreferences :=
          "Generate a professional summary tailored for a " ++ jobTitle
            ++ " position at " ++ companyName ++ ". "
            ++ (if jobDescription = "" then ""
                else "Job requirements: " ++ strTake 500 jobDescription) }
    workExperience :=
      if 0 < (sanitizeWorkExperience profile.experience).length
      then some (sanitizeWorkExperience profile.experience) else none
    education :=
      if 0 < (sanitizeEducation profile.education).length
      then some (sanitizeEducation profile.education) else none
    skills :=
      if 0 < (sanitizeSkills profile.skills).length
      then some (sanitizeSkills profile.skills) else none
    additionalNotes :=
      "This summary is for an application to " ++ jobTitle ++ " at " ++ companyName ++ "." }

structure AiGenerateResume where
  professionalSummary : Option String
  deriving DecidableEq, Repr

structure AiGenerateResponse where
  resume : Option AiGenerateResume
  deriving DecidableEq, Repr

/-- The return value of generateProfessionalSummary on a successful
/resumes/ai-generate call: response.data question-dot resume question-dot
professionalSummary or-else the empty string. -/
def extractProfessionalSummary (response : AiGenerateResponse) : String :=
  ((response.resume.bind fun r => r.professionalSummary).getD "")

/-- Claim C7: generateProfessionalSummary returns exactly the
professionalSummary field of the backend response (the empty string when
the field is absent), and the payload it builds keeps only experience
entries with a truthy title and company, only education entries with a
truthy school, and only string-valued skills; it synthesizes no summary
text locally. -/
theorem claim_C7 (profile : ProfileData) (jobTitle jobDescription companyName : String)
    (response : AiGenerateResponse) :
    (∀ w ∈ ((buildAiResumeInput profile jobTitle jobDescription companyName).workExperience).getD [],
        w.title ≠ "" ∧ w.company ≠ "")
    ∧ (∀ ed ∈ ((buildAiResumeInput profile jobTitle jobDescription companyName).education).getD [],
        ed.school ≠ "")
    ∧ (∀ sk ∈ ((buildAiResumeInput profile jobTitle jobDescription companyName).skills).getD [],
        isJsString sk = true)
    ∧ (∀ r s, response.resume = some r → r.professionalSummary = some s →
        extractProfessionalSummary response = s)
    ∧ (response.resume.bind (fun r => r.professionalSummary) = none →
        extractProfessionalSummary response = "") := by
  refine ⟨?_, ?_, ?_, ?_, ?_⟩
  · intro w hw
    have hw2 : w ∈ sanitizeWorkExperience profile.experience := by
      by_cases h : 0 < (sanitizeWorkExperience profile.experience).length
      · simpa [buildAiResumeInput, h] using hw
      · simp [buildAiResumeInput, h] at hw
    unfold sanitizeWorkExperience at hw2
    cases hexp : profile.experience with
    | none => rw [hexp] at hw2; simp at hw2
    | some exps =>
      rw [hexp] at hw2
      simp only [List.mem_map] at hw2
      obtain ⟨exp, hmem, hmap⟩ := hw2
      have hfilter := List.of_mem_filter hmem
      have ht : jsTruthyOptStr exp.title = true := by
        cases h : jsTruthyOptStr exp.title <;> simp [h] at hfilter ⊢
      have hc : jsTruthyOptStr exp.company = true := by
        cases h : jsTruthyOptStr exp.company <;> simp [h] at hfilter ⊢
      subst hmap
      constructor
      · cases htitle : exp.title with
        | none => rw [htitle] at ht; simp [jsTruthyOptStr] at ht
        | some t =>
          rw [htitle] at ht
          simp only [jsTruthyOptStr, bne_iff_ne, ne_eq] at ht
          simpa [htitle] using ht
      · cases hcomp : exp.company with
        | none => rw [hcomp] at hc; simp [jsTruthyOptStr] at hc
        | some c =>
          rw [hcomp] at hc
          simp only [jsTruthyOptStr, bne_iff_ne, ne_eq] at hc
          simpa [hcomp] using hc
  · intro ed hed
    have hed2 : ed ∈ sanitizeEducation profile.education := by
      by_cases h : 0 < (sanitizeEducation profile.education).length
      · simpa [buildAiResumeInput, h] using hed
      · simp [buildAiResumeInput, h] at hed
    unfold sanitizeEducation at hed2
    cases hedu : profile.education with
    | none => rw [hedu] at hed2; simp at hed2
    | some edus =>
      rw [hedu] at hed2
      simp only [List.mem_map] at hed2
      obtain ⟨edu, hmem, hmap⟩ := hed2
      have hfilter := List.of_mem_filter hmem
      subst hmap
      cases hsch : edu.school with
      | none => rw [hsch] at hfilter; simp [jsTruthyOptStr] at hfilter
      | some sc =>
        rw [hsch] at hfilter
        simp only [jsTruthyOptStr, bne_iff_ne, ne_eq] at hfilter
        simpa [hsch] using hfilter
  · intro sk hsk
    have hsk2 : sk ∈ sanitizeSkills profile.skills := by
      by_cases h : 0 < (sanitizeSkills profile.skills).length
      · simpa [buildAiResumeInput, h] using hsk
      · simp [buildAiResumeInput, h] at hsk
    unfold sanitizeSkills at hsk2
    cases hsks : profile.skills with
    | none => rw [hsks] at hsk2; simp at hsk2
    | some sks =>
      rw [hsks] at hsk2
      exact List.of_mem_filter hsk2
  · intro r s hr hs
    unfold extractProfessionalSummary
    rw [hr]
    simp [hs]
  · intro h
    unfold extractProfessionalSummary
    rw [h]
    rfl

/-- A concrete profile used by the claim C7 witness. -/
def sampleProfile : ProfileData :=
  { fullName := some "Pat Doe"
    name := none
    headline := none
    currentRole := none
    location := none
    email := none
    phone := none
    experience := some
      [{ title := some "Dev", company := some "Acme", location := none,
         startDate := none, start := none, endDate := none, «end» := none,
         responsibilities := none, achievements := none },
       { title := none, company := some "NoTitle Inc", location := none,
         startDate := none, start := none, endDate := none, «end» := none,
         responsibilities := none, achievements := none }]
    education := some [{ degree := none, school := some "State U", location := none,
                         graduationDate := none, graduation := none }]
    skills := some [.str "Lean", .other] }

/-- Witness for claim C7: on the sample profile every payload experience
entry has a non-empty title and company, and the summary of a concrete
response is returned verbatim. -/
theorem claim_C7_witness :
    (∀ w ∈ ((buildAiResumeInput sampleProfile "Engineer" "" "Acme").workExperience).getD [],
        w.title ≠ "" ∧ w.company ≠ "")
    ∧ extractProfessionalSummary { resume := some { professionalSummary := some "S" } } = "S" :=
  ⟨(claim_C7 sampleProfile "Engineer" "" "Acme"
      { resume := some { professionalSummary := some "S" } }).1,
   (claim_C7 sampleProfile "Engineer" "" "Acme"
      { resume := some { professionalSummary := some "S" } }).2.2.2.1
      { professionalSummary := some "S" } "S" rfl rfl⟩

/-
  src/lib/api.ts, response interceptor and ensureAccessTokenRefreshed

  JS String.includes is embedded over character lists, and the axios
  error object carries an optional response and an optional original
  request config with its _retry marker.
-/

/-- Whether the second character list begins with the first. -/
def listIsLeading : List Char → List Char → Bool
  | [], _ => true
  | _ :: _, [] => false
  | a :: as, b :: bs => a == b && listIsLeading as bs

/-- Whether sub occurs contiguously inside the second list. -/
def listHasSub (sub : List Char) : List Char → Bool
  | [] => listIsLeading sub []
  | a :: rest => listIsLeading sub (a :: rest) || listHasSub sub rest

/-- JS String.includes. -/
def jsIncludes (s sub : String) : Bool := listHasSub sub.data s.data

structure AxiosResponseInfo where
  status : Nat
  deriving DecidableEq, Repr

structure RequestConfig where
  url : Option String
  _retry : Bool
  deriving DecidableEq, Repr

structure AxiosErrorInfo where
  response : Option AxiosResponseInfo
  config : Option RequestConfig
  deriving DecidableEq, Repr

/-- The auth-endpoint test of the response interceptor. -/
def isAuthEndpoint (url : String) : Bool :=
  jsIncludes url "/auth/login" || jsIncludes url "/auth/register"
    || jsIncludes url "/auth/refresh"

/-- Outcome of the response error interceptor: the error is rejected
(recording whether a token refresh was attempted first), or the original
request is retried after a refresh. -/
inductive InterceptOutcome
  | rejected (refreshAttempted : Bool)
  | retried (config : RequestConfig)
  deriving DecidableEq, Repr

/-- The response error interceptor of the api axios instance:
missing response or config rejects immediately; a 401 on a non-auth
endpoint whose request was not yet retried, with a refresh token
present, marks the request retried and refreshes, then replays the
request exactly when the refresh produced a token; every other error is
rejected without a refresh.  newTokenAfterRefresh is the access token
ensureAccessTokenRefreshed resolves with. -/
def responseInterceptorOnError (error : AxiosErrorInfo) (refreshToken : Option String)
    (newTokenAfterRefresh : Option String) : InterceptOutcome :=
  match error.response, error.config with
  | none, _ => .rejected false
  | some _, none => .rejected false
  | some response, some originalRequest =>
    if response.status == 401 && !originalRequest._retry
        && !(isAuthEndpoint (originalRequest.url.getD "")) && refreshToken.isSome then
      match newTokenAfterRefresh with
      | some _ => .retried { originalRequest with _retry := true }
      | none => .rejected true
    else .rejected false

/-- One call to ensureAccessTokenRefreshed against the single-flight
refreshPromise: reuse the in-flight refresh when present, otherwise
start one network refresh request. -/
def ensureRefreshStep (refreshInFlight : Bool) : Bool × Nat :=
  if refreshInFlight then (true, 0) else (true, 1)

/-- Number of refresh network requests issued by n concurrent
ensureAccessTokenRefreshed calls entering while the given in-flight
state holds. -/
def concurrentRefreshRequests : Nat → Bool → Nat
  | 0, _ => 0
  | n + 1, inFlight =>
    (ensureRefreshStep inFlight).2 + concurrentRefreshRequests n (ensureRefreshStep inFlight).1

theorem concurrentRefreshRequests_inFlight (n : Nat) :
    concurrentRefreshRequests n true = 0 := by
  induction n with
  | zero => rfl
  | succ n ih => simp [concurrentRefreshRequests, ensureRefreshStep, ih]

/-- Claim C8: a refresh followed by a retry happens only on a 401 for a
non-auth endpoint with a refresh token present and the _retry flag
unset, and the replayed request carries the _retry flag; a request whose
_retry flag is already set, a non-401 status, an auth endpoint, or a
missing refresh token is rejected without any refresh; a refresh that
yields no token rejects without a retry; and n concurrent 401s starting
with no in-flight refresh issue exactly min n 1 refresh requests. -/
theorem claim_C8 (error : AxiosErrorInfo) (refreshToken newToken : Option String) :
    (∀ cfg, responseInterceptorOnError error refreshToken newToken = .retried cfg →
      ∃ resp orig, error.response = some resp ∧ error.config = some orig
        ∧ resp.status = 401 ∧ orig._retry = false
        ∧ isAuthEndpoint (orig.url.getD "") = false
        ∧ refreshToken.isSome = true ∧ newToken.isSome = true
        ∧ cfg = { orig with _retry := true })
    ∧ (∀ resp orig, error.response = some resp → error.config = some orig →
        orig._retry = true →
        responseInterceptorOnError error refreshToken newToken = .rejected false)
    ∧ (∀ resp orig, error.response = some resp → error.config = some orig →
        resp.status ≠ 401 →
        responseInterceptorOnError error refreshToken newToken = .rejected false)
    ∧ (∀ resp orig, error.response = some resp → error.config = some orig →
        isAuthEndpoint (orig.url.getD "") = true →
        responseInterceptorOnError error refreshToken newToken = .rejected false)
    ∧ (refreshToken = none →
        responseInterceptorOnError error refreshToken newToken = .rejected false)
    ∧ (newToken = none → ∀ cfg,
        responseInterceptorOnError error refreshToken newToken ≠ .retried cfg)
    ∧ (∀ n, concurrentRefreshRequests n false = min n 1) := by
  refine ⟨?_, ?_, ?_, ?_, ?_, ?_, ?_⟩
  · intro cfg hout
    cases hresp : error.response with
    | none => simp [responseInterceptorOnError, hresp] at hout
    | some resp =>
      cases hcfg : error.config with
      | none => simp [responseInterceptorOnError, hresp, hcfg] at hout
      | some orig =>
        refine ⟨resp, orig, rfl, rfl, ?_⟩
        simp only [responseInterceptorOnError, hresp, hcfg] at hout
        by_cases hcond : (resp.status == 401 && !orig._retry
            && !(isAuthEndpoint (orig.url.getD "")) && refreshToken.isSome) = true
        · rw [if_pos hcond] at hout
          simp only [Bool.and_eq_true, beq_iff_eq, Bool.not_eq_eq_eq_not,
            Bool.not_true] at hcond
          obtain ⟨⟨⟨h401, hretry⟩, hauth⟩, htok⟩ := hcond
          cases hnew : newToken with
          | none => rw [hnew] at hout; simp at hout
          | some t =>
            rw [hnew] at hout
            refine ⟨h401, by simpa using hretry, by simpa using hauth, htok, rfl, ?_⟩
            cases hout
            rfl
        · rw [if_neg hcond] at hout; simp at hout
  · intro resp orig hresp hcfg hretry
    simp only [responseInterceptorOnError, hresp, hcfg]
    rw [if_neg]
    simp [hretry]
  · intro resp orig hresp hcfg h401
    simp only [responseInterceptorOnError, hresp, hcfg]
    rw [if_neg]
    simp [h401]
  · intro resp orig hresp hcfg hauth
    simp only [responseInterceptorOnError, hresp, hcfg]
    rw [if_neg]
    simp [hauth]
  · intro htok
    cases hresp : error.response with
    | none => simp [responseInterceptorOnError, hresp]
    | some resp =>
      cases hcfg : error.config with
      | none => simp only [responseInterceptorOnError, hresp, hcfg]
      | some orig =>
        simp only [responseInterceptorOnError, hresp, hcfg]
        rw [if_neg]
        simp [htok]
  · intro hnew cfg
    cases hresp : error.response with
    | none => simp [responseInterceptorOnError, hresp]
    | some resp =>
      cases hcfg : error.config with
      | none => simp only [responseInterceptorOnError, hresp, hcfg]; simp
      | some orig =>
        simp only [responseInterceptorOnError, hresp, hcfg]
        by_cases hcond : (resp.status == 401 && !orig._retry
            && !(isAuthEndpoint (orig.url.getD "")) && refreshToken.isSome) = true
        · rw [if_pos hcond, hnew]; simp
        · rw [if_neg hcond]; simp
  · intro n
    cases n with
    | zero => rfl
    | succ m =>
      simp [concurrentRefreshRequests, ensureRefreshStep,
        concurrentRefreshRequests_inFlight, Nat.min_def]

/-- Witness for claim C8: a first 401 on a workflow endpoint with a
refresh token and a fresh access token is retried with the _retry flag
set, and a second failure of that retried request is rejected. -/
theorem claim_C8_witness :
    responseInterceptorOnError
        { response := some { status := 401 },
          config := some { url := some "/workflow/search", _retry := true } }
        (some "r") (some "t")
      = .rejected false :=
  (claim_C8
      { response := some { status := 401 },
        config := some { url := some "/workflow/search", _retry := true } }
      (some "r") (some "t")).2.1
    { status := 401 } { url := some "/workflow/search", _retry := true } rfl rfl rfl

/-
  src/components/application/ApplicationProgressModal.tsx

  The pollProgress loop runs on a 2 second interval; one loop iteration
  consumes one backend response.  A request that throws is modelled as a
  response with success false, since both leave the loop state unchanged.
-/

structure ApplyStatusResp where
  success : Bool
  total : Option Nat
  processed : Option Nat
  successful : Option Nat
  failed : Option Nat
  skipped : Option Nat
  status : Option String
  isComplete : Option Bool
  deriving DecidableEq, Repr

structure ProgressState where
  total : Nat
  processed : Nat
  successful : Nat
  failed : Nat
  skipped : Nat
  status : String
  isComplete : Bool
  deriving DecidableEq, Repr

/-- The initial progress state of ApplicationProgressModal. -/
def initialProgress (totalJobs : Nat) : ProgressState :=
  { total := totalJobs, processed := 0, successful := 0, failed := 0, skipped := 0,
    status := "Initializing...", isComplete := false }

/-- The loop state: the rendered progress, the completionHandledRef
guard, and whether clearInterval has been called. -/
structure PollLoopState where
  progress : ProgressState
  completionHandled : Bool
  intervalCleared : Bool
  deriving DecidableEq, Repr

/-- One iteration of pollProgress on a backend response: on success the
progress state is refreshed from the data with JS or-else defaults, and
when the data reports completion with the completion not yet handled the
guard is set and the interval cleared. -/
def pollProgressStep (totalJobs : Nat) (resp : ApplyStatusResp) (st : PollLoopState) :
    PollLoopState :=
  if resp.success then
    if jsOrBool resp.isComplete && !st.completionHandled then
      { progress :=
          { total := jsOrNat resp.total totalJobs
            processed := jsOrNat resp.processed 0
            successful := jsOrNat resp.successful 0
            failed := jsOrNat resp.failed 0
            skipped := jsOrNat resp.skipped 0
            status := jsOr3 resp.status none "Processing..."
            isComplete := jsOrBool resp.isComplete }
        completionHandled := true
        intervalCleared := true }
    else
      { progress :=
          { total := jsOrNat resp.total totalJobs
            processed := jsOrNat resp.processed 0
            successful := jsOrNat resp.successful 0
            failed := jsOrNat resp.failed 0
            skipped := jsOrNat resp.skipped 0
            status := jsOr3 resp.status none "Processing..."
            isComplete := jsOrBool resp.isComplete }
        completionHandled := st.completionHandled
        intervalCleared := st.intervalCleared }
  else st

/-- The poll loop after n responses from the backend. -/
def pollProgressRun (totalJobs : Nat) (resp : Nat → ApplyStatusResp) : Nat → PollLoopState
  | 0 => { progress := initialProgress totalJobs, completionHandled := false,
           intervalCleared := false }
  | n + 1 => pollProgressStep totalJobs (resp n) (pollProgressRun totalJobs resp n)

/-- Whether the poller has cleared its interval within the first n
responses. -/
def appPollCleared (totalJobs : Nat) (resp : Nat → ApplyStatusResp) (n : Nat) : Bool :=
  (pollProgressRun totalJobs resp n).intervalCleared

theorem pollProgressRun_handled_eq (totalJobs : Nat) (resp : Nat → ApplyStatusResp) :
    ∀ n, (pollProgressRun totalJobs resp n).completionHandled
      = (pollProgressRun totalJobs resp n).intervalCleared := by
  intro n
  induction n with
  | zero => rfl
  | succ n ih =>
    simp only [pollProgressRun, pollProgressStep]
    cases hs : (resp n).success with
    | false => simpa using ih
    | true =>
      cases hc : (jsOrBool (resp n).isComplete
          && !(pollProgressRun totalJobs resp n).completionHandled) with
      | false => simpa using ih
      | true => simp

theorem appPollCleared_succ (totalJobs : Nat) (resp : Nat → ApplyStatusResp) (n : Nat) :
    appPollCleared totalJobs resp (n + 1)
      = (appPollCleared totalJobs resp n
          || ((resp n).success && jsOrBool (resp n).isComplete)) := by
  have hhc := pollProgressRun_handled_eq totalJobs resp n
  cases hcl : (pollProgressRun totalJobs resp n).intervalCleared with
  | false =>
    rw [hcl] at hhc
    cases hs : (resp n).success with
    | false => simp [appPollCleared, pollProgressRun, pollProgressStep, hs, hcl]
    | true =>
      cases hcm : jsOrBool (resp n).isComplete with
      | false => simp [appPollCleared, pollProgressRun, pollProgressStep, hs, hcm, hhc, hcl]
      | true => simp [appPollCleared, pollProgressRun, pollProgressStep, hs, hcm, hhc]
  | true =>
    rw [hcl] at hhc
    cases hs : (resp n).success with
    | false => simp [appPollCleared, pollProgressRun, pollProgressStep, hs, hcl]
    | true =>
      cases hcm : jsOrBool (resp n).isComplete with
      | false => simp [appPollCleared, pollProgressRun, pollProgressStep, hs, hcm, hhc, hcl]
      | true => simp [appPollCleared, pollProgressRun, pollProgressStep, hs, hcm, hhc, hcl]

theorem appPollCleared_iff (totalJobs : Nat) (resp : Nat → ApplyStatusResp) :
    ∀ n, (appPollCleared totalJobs resp n = true ↔
      ∃ i, i < n ∧ (resp i).success = true ∧ jsOrBool (resp i).isComplete = true) := by
  intro n
  induction n with
  | zero =>
    simp [appPollCleared, pollProgressRun]
  | succ n ih =>
    rw [appPollCleared_succ]
    constructor
    · intro h
      have h2 : appPollCleared totalJobs resp n = true
          ∨ ((resp n).success && jsOrBool (resp n).isComplete) = true := by
        simpa using h
      rcases h2 with ha | hb
      · obtain ⟨i, hi, rest⟩ := ih.1 ha
        exact ⟨i, Nat.lt_succ_of_lt hi, rest⟩
      · exact ⟨n, Nat.lt_succ_self n, by simpa using hb⟩
    · rintro ⟨i, hi, hs2, hc2⟩
      rcases Nat.lt_succ_iff_lt_or_eq.mp hi with hi2 | hi2
      · simp only [Bool.or_eq_true]
        exact Or.inl (ih.2 ⟨i, hi2, hs2, hc2⟩)
      · subst hi2
        simp only [Bool.or_eq_true]
        exact Or.inr (by simp [hs2, hc2])

/-- A backend that always answers successfully but never reports
completion. -/
def constIncompleteResp : Nat → ApplyStatusResp := fun _ =>
  { success := true, total := none, processed := none, successful := none,
    failed := none, skipped := none, status := none, isComplete := some false }

/-- Counterexample to claim C1 as stated: against a backend that never
reports isComplete, the application-progress poller never clears its
interval, so not every polling loop terminates for every sequence of
backend responses. -/
theorem claim_C1_counterexample :
    ¬ ∃ n, appPollCleared 1 constIncompleteResp n = true := by
  rintro ⟨n, h⟩
  obtain ⟨i, _, _, hc⟩ := (appPollCleared_iff 1 constIncompleteResp n).1 h
  simp [constIncompleteResp, jsOrBool] at hc

/-
  src/components/jobs/BulkApplyBar.tsx, pollForEmails inside
  handleGenerateEmails

  One attempt consumes one backend answer: a preview response carrying a
  success flag and an optional emails array, or a thrown request (the
  expected 404 while generation is pending).  The attempts counter bounds
  the recursion by maxAttempts; the extra structural fuel argument of the
  embedding satisfies maxAttempts less-or-equal attempts + fuel at every
  reachable call, so its exhaustion branch is never taken from the entry
  point.
-/

inductive PreviewPollResp
  | ok (success : Bool) (emails : Option (List EmailPreview))
  | err
  deriving DecidableEq, Repr

/-- maxAttempts of pollForEmails: 60 polls, 2 seconds apart. -/
def maxAttempts : Nat := 60

/-- The stop condition of pollForEmails: a successful response with a
non-empty emails array. -/
def pollStop : PreviewPollResp → Bool
  | .ok true (some emails) => decide (0 < emails.length)
  | _ => false

/-- The emails carried by a response when present. -/
def pollEmailsOf : PreviewPollResp → List EmailPreview
  | .ok _ (some emails) => emails
  | _ => []

inductive EmailPollOutcome
  | gotEmails (emails : List EmailPreview)
  | timeout
  deriving DecidableEq, Repr

/-- pollForEmails from handleGenerateEmails, with the number of requests
performed: stop with the received emails on a successful non-empty
response; otherwise increment attempts and re-poll while attempts stays
below maxAttempts, reporting a timeout after that. -/
def pollForEmailsGo (resp : Nat → PreviewPollResp) : Nat → Nat → EmailPollOutcome × Nat
  | attempts, 0 =>
    if pollStop (resp attempts) then (.gotEmails (pollEmailsOf (resp attempts)), 1)
    else (.timeout, 1)
  | attempts, fuel + 1 =>
    if pollStop (resp attempts) then (.gotEmails (pollEmailsOf (resp attempts)), 1)
    else if attempts + 1 < maxAttempts then
      ((pollForEmailsGo resp (attempts + 1) fuel).1,
       (pollForEmailsGo resp (attempts + 1) fuel).2 + 1)
    else (.timeout, 1)

/-- The poll loop entered by handleGenerateEmails at attempts zero. -/
def pollForEmails (resp : Nat → PreviewPollResp) : EmailPollOutcome × Nat :=
  pollForEmailsGo resp 0 maxAttempts

/-- The isGeneratingEmails flag after the poll loop ends: both the
success path and the timeout path call setIsGeneratingEmails false. -/
def isGeneratingAfterPoll : EmailPollOutcome → Bool
  | .gotEmails _ => false
  | .timeout => false

theorem pollStop_sound (r : PreviewPollResp) (h : pollStop r = true) :
    r = .ok true (some (pollEmailsOf r)) ∧ 0 < (pollEmailsOf r).length := by
  cases r with
  | err => simp [pollStop] at h
  | ok success emails =>
    cases success with
    | false => simp [pollStop] at h
    | true =>
      cases emails with
      | none => simp [pollStop] at h
      | some l =>
        simp only [pollStop, decide_eq_true_eq] at h
        exact ⟨by simp [pollEmailsOf], by simpa [pollEmailsOf] using h⟩

theorem pollForEmailsGo_count_le (resp : Nat → PreviewPollResp) :
    ∀ fuel attempts, maxAttempts ≤ attempts + fuel → attempts < maxAttempts →
      (pollForEmailsGo resp attempts fuel).2 ≤ maxAttempts - attempts := by
  intro fuel
  induction fuel with
  | zero => intro a h1 h2; omega
  | succ f ih =>
    intro a h1 h2
    simp only [pollForEmailsGo]
    by_cases hstop : pollStop (resp a) = true
    · rw [if_pos hstop]; simp; omega
    · rw [if_neg hstop]
      by_cases hlt : a + 1 < maxAttempts
      · rw [if_pos hlt]
        have := ih (a + 1) (by omega) hlt
        simp only []
        omega
      · rw [if_neg hlt]; simp; omega

theorem pollForEmailsGo_gotEmails (resp : Nat → PreviewPollResp) :
    ∀ fuel attempts es, (pollForEmailsGo resp attempts fuel).1 = .gotEmails es →
      ∃ i, resp i = .ok true (some es) ∧ 0 < es.length := by
  intro fuel
  induction fuel with
  | zero =>
    intro a es h
    simp only [pollForEmailsGo] at h
    by_cases hstop : pollStop (resp a) = true
    · rw [if_pos hstop] at h
      simp only at h
      obtain ⟨hr, hlen⟩ := pollStop_sound (resp a) hstop
      cases h
      exact ⟨a, hr, hlen⟩
    · rw [if_neg hstop] at h
      simp at h
  | succ f ih =>
    intro a es h
    simp only [pollForEmailsGo] at h
    by_cases hstop : pollStop (resp a) = true
    · rw [if_pos hstop] at h
      simp only at h
      obtain ⟨hr, hlen⟩ := pollStop_sound (resp a) hstop
      cases h
      exact ⟨a, hr, hlen⟩
    · rw [if_neg hstop] at h
      by_cases hlt : a + 1 < maxAttempts
      · rw [if_pos hlt] at h
        exact ih (a + 1) es h
      · rw [if_neg hlt] at h
        simp at h

/-- Claim C1 (amended): the application-progress poller clears its
interval within n responses exactly when some earlier response reported
success with isComplete, so it polls forever when the backend never
reports completion; the email-preview poller performs at most
maxAttempts requests for every response sequence, its successful outcome
carries a non-empty email list received from the backend, and both its
outcomes clear the generating flag. -/
theorem claim_C1 (totalJobs : Nat) (resp : Nat → ApplyStatusResp) (n : Nat)
    (eresp : Nat → PreviewPollResp) :
    (appPollCleared totalJobs resp n = true ↔
      ∃ i, i < n ∧ (resp i).success = true ∧ jsOrBool (resp i).isComplete = true)
    ∧ (pollForEmails eresp).2 ≤ maxAttempts
    ∧ (∀ es, (pollForEmails eresp).1 = .gotEmails es →
        ∃ i, eresp i = .ok true (some es) ∧ 0 < es.length)
    ∧ isGeneratingAfterPoll (pollForEmails eresp).1 = false := by
  refine ⟨appPollCleared_iff totalJobs resp n, ?_, ?_, ?_⟩
  · have h := pollForEmailsGo_count_le eresp maxAttempts 0 (by omega) (by simp [maxAttempts])
    simpa using h
  · intro es h
    exact pollForEmailsGo_gotEmails eresp maxAttempts 0 es h
  · cases (pollForEmails eresp).1 <;> rfl

/-- A backend that reports completion at once. -/
def constCompleteResp : Nat → ApplyStatusResp := fun _ =>
  { success := true, total := none, processed := none, successful := none,
    failed := none, skipped := none, status := none, isComplete := some true }

/-- A preview backend answering at once with one email. -/
def constPreviewResp : Nat → PreviewPollResp := fun _ => .ok true (some [sampleEmail])

/-- Witness for claim C1: the progress poller clears its interval after
one completing response, and against an immediately successful preview
backend the email poller stops with the backend email list. -/
theorem claim_C1_witness :
    appPollCleared 1 constCompleteResp 1 = true
    ∧ (∃ i, constPreviewResp i = PreviewPollResp.ok true (some [sampleEmail])
        ∧ 0 < [sampleEmail].length) :=
  ⟨(claim_C1 1 constCompleteResp 1 constPreviewResp).1.mpr
      ⟨0, by decide, rfl, rfl⟩,
   (claim_C1 1 constCompleteResp 1 constPreviewResp).2.2.1
      [sampleEmail] (by decide)⟩

/-
  src/components/jobs/EmailListView.tsx

  The editing state initialized from each backend email and the values
  displayed in the subject and body fields.
-/

structure EditingState where
  subject : String
  body : String
  recipientEmail : String
  deriving DecidableEq, Repr

/-- initializeEditingState from EmailListView: seed the editing state
with the backend email fields. -/
def initEditingState (email : EmailPreview) : EditingState :=
  { subject := email.subject, body := email.body, recipientEmail := email.recipientEmail }

/-- The editing state EmailListView renders: the stored one when
present, otherwise the backend email fields. -/
def displayedEditingState (editing : Option EditingState) (email : EmailPreview) :
    EditingState :=
  editing.getD
    { subject := email.subject, body := email.body, recipientEmail := email.recipientEmail }

/-- Claim C6: the email list shown for review is a backend response: a
successful poll outcome equals, entry for entry, the emails array of a
backend preview response, and with no local edit the displayed subject
and body equal the backend email fields; no subject or body is built
from a local template in this flow. -/
theorem claim_C6 (eresp : Nat → PreviewPollResp) :
    (∀ es, (pollForEmails eresp).1 = .gotEmails es →
      ∃ i, eresp i = .ok true (some es) ∧ 0 < es.length)
    ∧ (∀ email : EmailPreview,
        initEditingState email
          = { subject := email.subject, body := email.body,
              recipientEmail := email.recipientEmail }
        ∧ (displayedEditingState none email).subject = email.subject
        ∧ (displayedEditingState none email).body = email.body) := by
  refine ⟨?_, ?_⟩
  · intro es h
    exact pollForEmailsGo_gotEmails eresp maxAttempts 0 es h
  · intro email
    exact ⟨rfl, rfl, rfl⟩

/-- Witness for claim C6: a backend answering with one email at once
ends the poll with exactly that backend list, displayed verbatim. -/
theorem claim_C6_witness :
    (∃ i, constPreviewResp i = PreviewPollResp.ok true (some [sampleEmail])
      ∧ 0 < [sampleEmail].length)
    ∧ (displayedEditingState none sampleEmail).subject = sampleEmail.subject :=
  ⟨(claim_C6 constPreviewResp).1 [sampleEmail] (by decide),
   ((claim_C6 constPreviewResp).2 sampleEmail).2.1⟩

/-
  src/components/jobs/BulkApplyBar.tsx, getProxyPdfUrl, and its call
  sites (resume iframe, Download PDF, Open in New Tab).

  The WHATWG URL constructor used by the source is modelled by a small
  absolute-URL parser: scheme, authority kept verbatim in the origin,
  and the query string split into search parameters; a string without a
  valid scheme-authority shape fails to parse, as new URL throws.
-/

/-- Split a character list at the first scheme separator colon slash
slash, returning the scheme and the remainder. -/
def splitScheme : List Char → Option (List Char × List Char)
  | [] => none
  | ':' :: '/' :: '/' :: rest => some ([], rest)
  | a :: as =>
    match splitScheme as with
    | some (scheme, rest) => some (a :: scheme, rest)
    | none => none

/-- Take the authority part: everything before the first slash, question
mark or hash. -/
def takeUntilDelim : List Char → List Char × List Char
  | [] => ([], [])
  | a :: as =>
    if a = '/' ∨ a = '?' ∨ a = '#' then ([], a :: as)
    else ((a :: (takeUntilDelim as).1), (takeUntilDelim as).2)

/-- Split a character list at the first occurrence of a character. -/
def breakAtChar (c : Char) : List Char → List Char × Option (List Char)
  | [] => ([], none)
  | a :: as =>
    if a = c then ([], some as)
    else ((a :: (breakAtChar c as).1), (breakAtChar c as).2)

/-- Split a character list on every occurrence of a character. -/
def splitOnChar (c : Char) : List Char → List (List Char)
  | [] => [[]]
  | a :: as =>
    if a = c then [] :: splitOnChar c as
    else
      match splitOnChar c as with
      | [] => [[a]]
      | g :: gs => (a :: g) :: gs

/-- The query string of a path-and-after fragment: after the first
question mark, before any hash. -/
def extractQuery (l : List Char) : List Char :=
  match breakAtChar '?' l with
  | (_, some q) => (breakAtChar '#' q).1
  | (_, none) => []

/-- URLSearchParams over a raw query string. -/
def parseQueryParams (l : List Char) : List (String × String) :=
  if l = [] then []
  else
    (splitOnChar '&' l).filterMap fun p =>
      if p = [] then none
      else
        match breakAtChar '=' p with
        | (k, some v) => some (String.mk k, String.mk v)
        | (k, none) => some (String.mk k, "")

structure URLModel where
  origin : String
  searchParams : List (String × String)
  deriving DecidableEq, Repr

/-- Model of new URL: parse an absolute URL into its origin and search
parameters, failing (as the constructor throws) without an alphabetic
scheme followed by a non-empty authority. -/
def parseURL (s : String) : Option URLModel :=
  match splitScheme s.data with
  | none => none
  | some (scheme, rest) =>
    if scheme = [] then none
    else if !(scheme.all Char.isAlpha) then none
    else if (takeUntilDelim rest).1 = [] then none
    else
      some
        { origin := String.mk (scheme ++ (':' :: '/' :: '/' :: (takeUntilDelim rest).1))
          searchParams := parseQueryParams (extractQuery (takeUntilDelim rest).2) }

/-- URLSearchParams.get: first binding of the name, null when absent. -/
def searchParamsGet (params : List (String × String)) (name : String) : Option String :=
  recordGet params name

/-- JS template interpolation of a nullable string: null prints as the
word null. -/
def jsTemplateNullable : Option String → String
  | some s => s
  | none => "null"

/-- getProxyPdfUrl from BulkApplyBar: parse the backend pdfDownloadUrl,
build the relative proxy URL carrying fileId, id and the origin as
baseUrl; on a parse failure fall back to the original URL. -/
def getProxyPdfUrl (pdfDownloadUrl : String) : String :=
  match parseURL pdfDownloadUrl with
  | some url =>
    "/api/proxy-pdf?fileId=" ++ jsTemplateNullable (searchParamsGet url.searchParams "fileId")
      ++ "&id=" ++ jsTemplateNullable (searchParamsGet url.searchParams "id")
      ++ "&baseUrl=" ++ url.origin
  | none => pdfDownloadUrl

/-- The src of the resume preview iframe. -/
def iframeSrc (resume : ResumeState) : String := getProxyPdfUrl resume.pdfDownloadUrl

/-- The URL opened by the Download PDF button. -/
def downloadPdfUrl (resume : ResumeState) : String := getProxyPdfUrl resume.pdfDownloadUrl

/-- The URL opened by the Open in New Tab button. -/
def openInNewTabUrl (resume : ResumeState) : String := getProxyPdfUrl resume.pdfDownloadUrl

/-- Whether s begins with pre. -/
def strBeginsWith (pre s : String) : Bool := listIsLeading pre.data s.data

theorem listIsLeading_append (p : List Char) :
    ∀ q r, listIsLeading p q = true → listIsLeading p (q ++ r) = true := by
  induction p with
  | nil => intro q r _; rfl
  | cons a as ih =>
    intro q r h
    cases q with
    | nil => simp [listIsLeading] at h
    | cons b bs =>
      simp only [listIsLeading, Bool.and_eq_true] at h
      simp only [List.cons_append, listIsLeading, Bool.and_eq_true]
      exact ⟨h.1, ih bs r h.2⟩

theorem strBeginsWith_append (p s t : String) (h : strBeginsWith p s = true) :
    strBeginsWith p (s ++ t) = true := by
  unfold strBeginsWith at h ⊢
  rw [String.data_append]
  exact listIsLeading_append p.data s.data t.data h

/-- Counterexample to claim C5 as stated: on an input that does not
parse as a URL, getProxyPdfUrl returns the original string unchanged, so
not every backend-supplied pdfDownloadUrl is turned into a proxy URL. -/
theorem claim_C5_counterexample :
    getProxyPdfUrl "not-a-url" = "not-a-url"
    ∧ strBeginsWith "/api/proxy-pdf?" (getProxyPdfUrl "not-a-url") = false := by
  decide

/-- Claim C5 (amended): for every pdfDownloadUrl that parses as an
absolute URL, getProxyPdfUrl returns the relative URL beginning with
slash api slash proxy-pdf that carries the fileId and id query
parameters (the word null when absent) and the input origin as baseUrl,
and the iframe, download and open-in-new-tab actions all use exactly
this proxy URL; on an unparseable input the original URL is returned
unchanged. -/
theorem claim_C5 (resume : ResumeState) (url : URLModel)
    (h : parseURL resume.pdfDownloadUrl = some url) :
    iframeSrc resume
      = "/api/proxy-pdf?fileId=" ++ jsTemplateNullable (searchParamsGet url.searchParams "fileId")
        ++ "&id=" ++ jsTemplateNullable (searchParamsGet url.searchParams "id")
        ++ "&baseUrl=" ++ url.origin
    ∧ strBeginsWith "/api/proxy-pdf?" (iframeSrc resume) = true
    ∧ downloadPdfUrl resume = iframeSrc resume
    ∧ openInNewTabUrl resume = iframeSrc resume
    ∧ (∀ s, parseURL s = none → getProxyPdfUrl s = s) := by
  have hif : iframeSrc resume
      = "/api/proxy-pdf?fileId=" ++ jsTemplateNullable (searchParamsGet url.searchParams "fileId")
        ++ "&id=" ++ jsTemplateNullable (searchParamsGet url.searchParams "id")
        ++ "&baseUrl=" ++ url.origin := by
    unfold iframeSrc getProxyPdfUrl
    rw [h]
  refine ⟨hif, ?_, rfl, rfl, ?_⟩
  · rw [hif]
    exact strBeginsWith_append _ _ _ (strBeginsWith_append _ _ _ (strBeginsWith_append _ _ _
      (strBeginsWith_append _ _ _ (strBeginsWith_append _ _ _ (by decide)))))
  · intro s hs
    unfold getProxyPdfUrl
    rw [hs]

/-- A concrete resume state pointing at the PDF service. -/
def samplePdfResume : ResumeState :=
  { pdfUrl := ""
    pdfDownloadUrl := "http://localhost:8080/api/download-pdf?fileId=abc&id=7"
    googleDocUrl := ""
    isGenerating := false
    error := none }

/-- The parse of the sample pdfDownloadUrl. -/
def samplePdfUrlModel : URLModel :=
  { origin := "http://localhost:8080"
    searchParams := [("fileId", "abc"), ("id", "7")] }

/-- Witness for claim C5: the sample backend URL parses and its iframe
src is the same-origin proxy URL. -/
theorem claim_C5_witness :
    parseURL samplePdfResume.pdfDownloadUrl = some samplePdfUrlModel
    ∧ strBeginsWith "/api/proxy-pdf?" (iframeSrc samplePdfResume) = true :=
  ⟨by decide, (claim_C5 samplePdfResume samplePdfUrlModel (by decide)).2.1⟩
